import Mathlib

set_option maxRecDepth 100000

/-!
Verification development for the pentest-scheduler analysis pipeline
(source: `src/README.md`, embedded Go analyzer, lines 290-625).

Modelling conventions:
- Go `float64` values are modelled as `Rat` (the claims are about exact
  arithmetic on decimal constants; none depends on binary rounding).
- Go `time.Time` values are modelled as `Rat` timestamps measured in days,
  with `0` standing for the zero value of `time.Time`; `time.Since(t)` at
  the model's `now` is `now - t` (already in days, matching the source's
  `time.Since(d).Hours() / 24`).
- Subprocess invocations of the external `git` tool are modelled by a
  `GitOracle` record holding the result of each command the analyzer runs
  (raw stdout on success, a message on failure), so the analyzer's parsing
  and error handling is translated verbatim from the source.
- Error message texts for Go library errors (strconv, time.Parse, exec)
  are representative, non-empty placeholders; the analyzer only tests
  errors for nil-ness and prefixes its own text, so only non-emptiness
  matters.
-/

deriving instance DecidableEq for Except

namespace PentestSched

/-- One analysis record per repository; mirrors the Go struct
`RepositoryAnalysis` field for field (fields inferred from their uses in
`analyzeRepository` and the output formatters). Go zero values are the
Lean defaults. -/
structure RepositoryAnalysis where
  name : String := ""
  path : String := ""
  commitCount : Int := 0
  lastCommitDate : Rat := 0
  filesChanged : Nat := 0
  linesAdded : Int := 0
  linesDeleted : Int := 0
  linesModified : Int := 0
  totalChanges : Int := 0
  changePercentage : Rat := 0
  riskScore : Rat := 0
  recommendedPriority : String := ""
  error : String := ""
deriving Repr, DecidableEq

/-- The run-level result; mirrors the Go struct `AnalysisResults`
(presentation-only fields `GeneratedAt`, `TimePeriod`, `RepositoriesDir`
are omitted: no claim mentions them). -/
structure AnalysisResults where
  totalRepos : Nat := 0
  activeRepos : Nat := 0
  results : List RepositoryAnalysis := []
deriving Repr, DecidableEq

/-- The analyzer configuration fields consumed by the core
(`IncludeInactive`, `MinChangeThreshold`). `TimePeriod` only determines
the `--since` cutoff passed to the git oracle, which in this model is
baked into the oracle's answers (see `oracleOfHistory`). -/
structure AConfig where
  includeInactive : Bool := false
  minChangeThreshold : Rat := 0
deriving Repr, DecidableEq

/-- Go `unicode.IsSpace` restricted to the ASCII space characters that can
occur in git plumbing output. -/
def isSpaceChar (c : Char) : Bool :=
  c = ' ' || c = '\t' || c = '\n' || c = '\r' || c = '\x0b' || c = '\x0c'

/-- Go `strings.TrimSpace`. -/
def trimSpace (s : String) : String :=
  ⟨((s.data.dropWhile isSpaceChar).reverse.dropWhile isSpaceChar).reverse⟩

/-- Helper for `goFields`: accumulate the current run of non-space
characters (in reverse) and split at spaces. -/
def goFieldsAux : List Char → List Char → List String
  | [], cur => if cur.isEmpty then [] else [⟨cur.reverse⟩]
  | c :: cs, cur =>
    if isSpaceChar c then
      if cur.isEmpty then goFieldsAux cs []
      else ⟨cur.reverse⟩ :: goFieldsAux cs []
    else goFieldsAux cs (c :: cur)

/-- Go `strings.Fields`: split around runs of whitespace, no empty
fields. -/
def goFields (s : String) : List String :=
  goFieldsAux s.data []

/-- Decimal value of a digit character, if it is one. -/
def digitVal (c : Char) : Option Nat :=
  if c.isDigit then some (c.toNat - 48) else none

/-- Value of a non-empty all-digit character run; `none` if any character
is not a digit or the run is empty. -/
def allDigitsVal (cs : List Char) : Option Nat :=
  match cs with
  | [] => none
  | _ =>
    cs.foldl
      (fun acc c =>
        match acc, digitVal c with
        | some n, some d => some (n * 10 + d)
        | _, _ => none)
      (some 0)

/-- Go `strconv.Atoi`: optional sign, then a non-empty digit run, with the
64-bit range check (`ErrRange` modelled as a parse failure, matching how
callers treat any non-nil error). -/
def atoi (s : String) : Option Int :=
  match s.data with
  | '+' :: rest =>
    match allDigitsVal rest with
    | some n => if n ≤ 9223372036854775807 then some (n : Int) else none
    | none => none
  | '-' :: rest =>
    match allDigitsVal rest with
    | some n => if n ≤ 9223372036854775808 then some (-(n : Int)) else none
    | none => none
  | cs =>
    match allDigitsVal cs with
    | some n => if n ≤ 9223372036854775807 then some (n : Int) else none
    | none => none

/-- `bufio.Scanner` line splitting of a command's stdout. Trailing empty
tokens and `\r` handling are immaterial here because every consumer trims
each line and skips empty ones. -/
def linesOf (s : String) : List String :=
  s.splitOn "\n"

/-- Two decimal digits starting the given character list, with the rest. -/
def twoDigits : List Char → Option (Nat × List Char)
  | c1 :: c2 :: rest =>
    match digitVal c1, digitVal c2 with
    | some a, some b => some (a * 10 + b, rest)
    | _, _ => none
  | _ => none

/-- Go `time.Parse` with the fixed layout `"2006-01-02 15:04:05 -0700"`,
as used by `getCommitInfo` on the output of `git log -1 --format=%ci`.
Shape and range validation follow the layout (4-digit year, month 1-12,
day 1-31, hour/minute/second bounds, signed 4-digit zone). The resulting
timestamp is a monotone encoding in days; no claim depends on
calendar-exact arithmetic, only on parse success/failure and on the value
being some definite `Rat`. -/
def parseGitDate (s : String) : Option Rat :=
  match s.data with
  | y1 :: y2 :: y3 :: y4 :: rest0 =>
    match digitVal y1, digitVal y2, digitVal y3, digitVal y4 with
    | some a, some b, some c, some d =>
      let year := ((a * 10 + b) * 10 + c) * 10 + d
      match rest0 with
      | '-' :: rest1 =>
        match twoDigits rest1 with
        | some (mo, rest2) =>
          match rest2 with
          | '-' :: rest3 =>
            match twoDigits rest3 with
            | some (da, rest4) =>
              match rest4 with
              | ' ' :: rest5 =>
                match twoDigits rest5 with
                | some (ho, rest6) =>
                  match rest6 with
                  | ':' :: rest7 =>
                    match twoDigits rest7 with
                    | some (mi, rest8) =>
                      match rest8 with
                      | ':' :: rest9 =>
                        match twoDigits rest9 with
                        | some (se, rest10) =>
                          match rest10 with
                          | ' ' :: sg :: restz =>
                            match twoDigits restz with
                            | some (zh, restz2) =>
                              match twoDigits restz2 with
                              | some (zm, []) =>
                                if 1 ≤ mo ∧ mo ≤ 12 ∧ 1 ≤ da ∧ da ≤ 31 ∧
                                    ho ≤ 23 ∧ mi ≤ 59 ∧ se ≤ 59 ∧
                                    (sg = '+' ∨ sg = '-') then
                                  let secs : Int :=
                                    (((year * 372 + (mo - 1) * 31 + (da - 1)) * 24
                                        + ho) * 60 + mi) * 60 + se
                                  let off : Int := (zh * 60 + zm) * 60
                                  let utc : Int :=
                                    if sg = '-' then secs + off else secs - off
                                  some ((utc : Rat) / 86400)
                                else none
                              | _ => none
                            | none => none
                          | _ => none
                        | none => none
                      | _ => none
                    | none => none
                  | _ => none
                | none => none
              | _ => none
            | none => none
          | _ => none
        | none => none
      | _ => none
    | _, _, _, _ => none
  | _ => none

/-- Results of the git commands the analyzer runs against one repository,
each as the subprocess's raw stdout (`Except.ok`) or a failure
(`Except.error`). Fields, in the order the source issues the commands:
`rev-list --count --since=<cutoff> HEAD`, `log -1 --format=%ci`,
`diff --numstat --since=<cutoff> HEAD~1 HEAD`,
`log --since=<cutoff> --numstat --pretty=format:`, `ls-files`,
and line counting of one tracked file (`countLinesInFile`). -/
structure GitOracle where
  isGitRepo : Bool
  revListCountSince : Except String String
  logLast : Except String String
  diffNumstat : Except String String
  logNumstat : Except String String
  lsFiles : Except String String
  fileLineCount : String → Except String Nat

/-- Accumulator of `getChangeStats`' scan loop: the `fileSet` map (as an
insertion-ordered list of keys; only its cardinality is consumed) and the
two line counters. -/
structure ChangeAcc where
  fileSet : List String := []
  linesAdded : Int := 0
  linesDeleted : Int := 0
deriving Repr, DecidableEq

/-- One iteration of `getChangeStats`' scan loop over a raw output line:
trim, skip empty, split into fields; when at least three fields are
present, accumulate the added/deleted counts — a `-` binary marker or a
field `strconv.Atoi` rejects contributes 0 — and record the file name.
(The Go loop updates the three components one after the other; they are
independent, so the update is written as one record.) -/
def stepNumstat (acc : ChangeAcc) (raw : String) : ChangeAcc :=
  if trimSpace raw = "" then acc
  else
    match goFields (trimSpace raw) with
    | p0 :: p1 :: p2 :: _ =>
      { fileSet := if acc.fileSet.contains p2 then acc.fileSet else acc.fileSet ++ [p2]
        linesAdded := acc.linesAdded +
          (if p0 ≠ "-" then
            match atoi p0 with
            | some added => added
            | none => 0
          else 0)
        linesDeleted := acc.linesDeleted +
          (if p1 ≠ "-" then
            match atoi p1 with
            | some deleted => deleted
            | none => 0
          else 0) }
    | _ => acc

/-- The whole scan loop of `getChangeStats` over one command's stdout:
`(filesChanged, linesAdded, linesDeleted)`. -/
def parseNumstatOutput (out : String) : Nat × Int × Int :=
  let acc := (linesOf out).foldl stepNumstat {}
  (acc.fileSet.length, acc.linesAdded, acc.linesDeleted)

/-- Go `getChangeStats` (README lines 474-523): run
`git diff --numstat --since=<cutoff> HEAD~1 HEAD`; on failure fall back to
`git log --since=<cutoff> --numstat --pretty=format:`; on success of
either, scan the numstat lines. -/
def getChangeStats (o : GitOracle) : Except String (Nat × Int × Int) :=
  match o.diffNumstat with
  | Except.ok out => Except.ok (parseNumstatOutput out)
  | Except.error _ =>
    match o.logNumstat with
    | Except.ok out => Except.ok (parseNumstatOutput out)
    | Except.error e => Except.error e

/-- Go `getCommitInfo` (README lines 437-472): parse the window commit
count with `strconv.Atoi`, then the tip commit date with `time.Parse`;
an empty `git log -1` output leaves the zero timestamp. Any command or
parse failure is returned as an error. -/
def getCommitInfo (o : GitOracle) : Except String (Int × Rat) :=
  match o.revListCountSince with
  | Except.error e => Except.error e
  | Except.ok out =>
    match atoi (trimSpace out) with
    | none => Except.error "strconv.Atoi: invalid syntax"
    | some commitCount =>
      match o.logLast with
      | Except.error e => Except.error e
      | Except.ok out2 =>
        let lastCommitStr := trimSpace out2
        if lastCommitStr = "" then Except.ok (commitCount, 0)
        else
          match parseGitDate lastCommitStr with
          | none => Except.error "parsing time: cannot parse"
          | some lastCommit => Except.ok (commitCount, lastCommit)

/-- The per-file tally loop of `getRepositorySize`: sum the line counts of
the listed tracked files, skipping empties and files whose count errors. -/
def tallyTrackedLines (o : GitOracle) (out : String) : Nat :=
  let files := (trimSpace out).splitOn "\n"
  files.foldl
    (fun acc file =>
      if file = "" then acc
      else
        match o.fileLineCount file with
        | Except.ok n => acc + n
        | Except.error _ => acc)
    0

/-- Go `getRepositorySize` (README lines 525-554): list tracked files and
sum their line counts; a zero total is replaced by 1. (On `ls-files`
failure the Go function returns the pair `(1, err)`; the model keeps only
the error since `analyzeRepository` substitutes 1 for any error.) -/
def getRepositorySize (o : GitOracle) : Except String Nat :=
  match o.lsFiles with
  | Except.error e => Except.error e
  | Except.ok out =>
    if tallyTrackedLines o out = 0 then Except.ok 1
    else Except.ok (tallyTrackedLines o out)

/-- The repository size `analyzeRepository` actually divides by: the
`getRepositorySize` value, or 1 when that call errored. -/
def effectiveRepoSize (o : GitOracle) : Nat :=
  match getRepositorySize o with
  | Except.ok n => n
  | Except.error _ => 1

/-- `calculateRiskScore`'s `score` variable after Factor 1 (README line
576): the change-percentage component added to the initial 0. -/
def scoreAfterChange (a : RepositoryAnalysis) : Rat :=
  0 + a.changePercentage * 0.4

/-- `calculateRiskScore`'s `score` variable after Factor 2 (README lines
579-584): the commit component is added onto the running sum, and the
30-point cap tests and replaces that running sum — not the commit
component alone. -/
def scoreAfterCommits (a : RepositoryAnalysis) : Rat :=
  if a.commitCount > 0 then
    if scoreAfterChange a + (a.commitCount : Rat) * 3.0 > 30 then 30
    else scoreAfterChange a + (a.commitCount : Rat) * 3.0
  else scoreAfterChange a

/-- `calculateRiskScore`'s `score` variable after Factor 3 (README lines
587-594): the recency step on days since the last commit. `now` and
`a.lastCommitDate` are in days, so `now - a.lastCommitDate` is the
source's `time.Since(analysis.LastCommitDate).Hours() / 24`. -/
def scoreAfterRecency (now : Rat) (a : RepositoryAnalysis) : Rat :=
  if now - a.lastCommitDate < 7 then scoreAfterCommits a + 30
  else if now - a.lastCommitDate < 30 then scoreAfterCommits a + 20
  else if now - a.lastCommitDate < 90 then scoreAfterCommits a + 10
  else scoreAfterCommits a

/-- Go `calculateRiskScore` (README lines 572-602), staged through the
three `score` updates above, then the final 100 cap (lines 597-599). -/
def calculateRiskScore (now : Rat) (a : RepositoryAnalysis) : Rat :=
  if scoreAfterRecency now a > 100 then 100 else scoreAfterRecency now a

/-- Go `calculatePriority` (README lines 604-614); its local `score`
variable is just `analysis.RiskScore`, inlined here. -/
def calculatePriority (a : RepositoryAnalysis) : String :=
  if a.riskScore ≥ 70 then "HIGH"
  else if a.riskScore ≥ 40 then "MEDIUM"
  else "LOW"

/-- The recency step function of the score formula, named for use in
statements; `calculateRiskScore` inlines exactly this chain. -/
def recencyStep (days : Rat) : Rat :=
  if days < 7 then 30
  else if days < 30 then 20
  else if days < 90 then 10
  else 0

/-- Tail of `analyzeRepository` after both oracle queries succeeded
(README lines 396-426): populate the window metrics, derive
`changePercentage` from the effective repository size, then the risk
score and the priority. `nm` stands for the repository path; the Go code
sets `Name` to its base name, a string cosmetic no claim touches. -/
def successRecord (nm : String) (now : Rat) (o : GitOracle)
    (commitCount : Int) (lastCommit : Rat)
    (filesChanged : Nat) (linesAdded linesDeleted : Int) : RepositoryAnalysis :=
  let a2 : RepositoryAnalysis :=
    { name := nm, path := nm, commitCount := commitCount,
      lastCommitDate := lastCommit, filesChanged := filesChanged,
      linesAdded := linesAdded, linesDeleted := linesDeleted,
      linesModified := linesAdded + linesDeleted,
      totalChanges := linesAdded + linesDeleted }
  let repoSize : Nat := effectiveRepoSize o
  let a3 :=
    if repoSize > 0 then
      { a2 with changePercentage := (a2.totalChanges : Rat) / (repoSize : Rat) * 100 }
    else a2
  let a4 := { a3 with riskScore := calculateRiskScore now a3 }
  { a4 with recommendedPriority := calculatePriority a4 }

/-- Go `analyzeRepository` (README lines 374-427): validity check, commit
info, change stats — each failure tags the record and returns it with the
fields set so far — otherwise the derived metrics are computed. -/
def analyzeRepository (nm : String) (now : Rat) (o : GitOracle) : RepositoryAnalysis :=
  let base : RepositoryAnalysis := { name := nm, path := nm }
  if o.isGitRepo = false then
    { base with error := "Not a valid git repository" }
  else
    match getCommitInfo o with
    | Except.error e => { base with error := "Failed to get commit info: " ++ e }
    | Except.ok (commitCount, lastCommit) =>
      match getChangeStats o with
      | Except.error e =>
        { base with commitCount := commitCount, lastCommitDate := lastCommit,
                    error := "Failed to get change stats: " ++ e }
      | Except.ok (filesChanged, linesAdded, linesDeleted) =>
        successRecord nm now o commitCount lastCommit filesChanged linesAdded linesDeleted

/-- The swap comparison of `sortRepositoriesByRisk`'s inner loop. -/
def shouldSwap (ri rj : RepositoryAnalysis) : Bool :=
  decide (ri.riskScore < rj.riskScore ∨
    (ri.riskScore = rj.riskScore ∧ ri.changePercentage < rj.changePercentage))

/-- One comparison-and-swap of `sortRepositoriesByRisk` at indices `i < j`. -/
def swapStep (arr : Array RepositoryAnalysis) (i j : Nat) : Array RepositoryAnalysis :=
  if hi : i < arr.size then
    if hj : j < arr.size then
      if shouldSwap (arr.get ⟨i, hi⟩) (arr.get ⟨j, hj⟩) then
        arr.swap ⟨i, hi⟩ ⟨j, hj⟩
      else arr
    else arr
  else arr

/-- Go `sortRepositoriesByRisk` (README lines 616-626): the source's
in-place pairwise nested-loop swap sort, expressed as folds over the index
ranges `i ∈ [0, n)` and `j ∈ (i, n)` (the Go outer loop stops at `n-1`,
whose inner range is empty, so the ranges coincide). -/
def sortRepositoriesByRisk (results : List RepositoryAnalysis) : List RepositoryAnalysis :=
  let n := results.length
  (((List.range n).foldl
      (fun arr i => (((List.range n).drop (i + 1)).foldl
        (fun arr j => swapStep arr i j) arr))
      results.toArray)).toList

/-- Body of `analyzeRepositories`' per-repository loop (README lines
324-345): analyze, apply the two inclusion filters via `continue`, count
error-free records as active, append. -/
def aggStep (cfg : AConfig) (now : Rat) (res : AnalysisResults)
    (p : String × GitOracle) : AnalysisResults :=
  let analysis := analyzeRepository p.1 now p.2
  if cfg.includeInactive = false ∧ analysis.commitCount = 0 then res
  else if analysis.changePercentage < cfg.minChangeThreshold then res
  else
    let res1 :=
      if analysis.error = "" then { res with activeRepos := res.activeRepos + 1 }
      else res
    { res1 with results := res1.results ++ [analysis] }

/-- Go `analyzeRepositories` (README lines 303-351): the discovered
repositories (the outcome of `findGitRepositories`' filesystem walk,
which is I/O) enter as the input list, each path paired with the git
oracle behaviour at that path; the loop filters, counts and collects, and
the result list is sorted. -/
def analyzeRepositories (cfg : AConfig) (now : Rat)
    (repos : List (String × GitOracle)) : AnalysisResults :=
  let init : AnalysisResults :=
    { totalRepos := repos.length, activeRepos := 0, results := [] }
  let r := repos.foldl (aggStep cfg now) init
  { r with results := sortRepositoriesByRisk r.results }

/-- The retention predicate the aggregator loop actually implements,
applied uniformly to every record (error-tagged or not): kept iff the
include-inactive filter and the minimum-change threshold both pass. -/
def keepRecord (cfg : AConfig) (a : RepositoryAnalysis) : Bool :=
  !(decide (cfg.includeInactive = false ∧ a.commitCount = 0)) &&
    !(decide (a.changePercentage < cfg.minChangeThreshold))

/-- A numstat entry of one commit as git reports it: per-file insertion
and deletion counts, `none` standing for the `-` marker of binary files. -/
structure NumstatEntry where
  added : Option Nat
  deleted : Option Nat
  path : String
deriving Repr, DecidableEq

/-- A commit of the modelled repository: its timestamp (days, same scale
as `now`) and its per-file numstat entries. -/
structure Commit where
  time : Rat
  entries : List NumstatEntry
deriving Repr, DecidableEq

/-- Rendering of one numstat field (`-` for binary). -/
def renderNumstatField : Option Nat → String
  | none => "-"
  | some n => toString n

/-- Rendering of one `git` numstat output line: `added TAB deleted TAB path`. -/
def renderNumstatLine (e : NumstatEntry) : String :=
  renderNumstatField e.added ++ "\t" ++ renderNumstatField e.deleted ++ "\t" ++ e.path

/-- The numstat block for a list of entries, one line per entry. -/
def renderNumstatLines (entries : List NumstatEntry) : String :=
  String.intercalate "\n" (entries.map renderNumstatLine)

/-- The commits of a history (newest first) whose timestamp falls within
the window, i.e. at or after the cutoff `--since` date. -/
def windowCommits (cutoff : Rat) (h : List Commit) : List Commit :=
  h.filter (fun c => decide (cutoff ≤ c.time))

/-- Oracle behaviour of a real git repository with linear history `h`
(newest commit first) and current tracked files `tree` (path, line
count):
- `rev-list --count --since HEAD` prints the number of in-window commits,
  and fails when there is no commit at all (`HEAD` does not resolve; this
  is git's "does not have any commits" failure class);
- `log -1 --format=%ci` prints the tip commit's date — supplied as the
  raw string `tipDateStr` (its `%ci` rendering) — and fails on an empty
  repository;
- `diff --numstat --since=<cutoff> HEAD~1 HEAD` prints the numstat of the
  newest commit only whenever `HEAD~1` resolves (git parses `--since` as
  a revision-walking option and ignores it for a two-revision diff), and
  fails when the repository has fewer than two commits;
- `log --since --numstat --pretty=format:` prints the numstat lines of
  every in-window commit, and fails on an empty repository;
- `ls-files` lists the tracked paths; line counting looks a path up in
  `tree`. -/
def oracleOfHistory (cutoff : Rat) (h : List Commit) (tipDateStr : String)
    (tree : List (String × Nat)) : GitOracle :=
  { isGitRepo := true
    revListCountSince :=
      match h with
      | [] => Except.error "exit status 128"
      | _ => Except.ok (toString (windowCommits cutoff h).length)
    logLast :=
      match h with
      | [] => Except.error "exit status 128"
      | _ => Except.ok tipDateStr
    diffNumstat :=
      match h with
      | tip :: _ :: _ => Except.ok (renderNumstatLines tip.entries)
      | _ => Except.error "exit status 128"
    logNumstat :=
      match h with
      | [] => Except.error "exit status 128"
      | _ => Except.ok (String.intercalate "\n"
          ((windowCommits cutoff h).map (fun c => renderNumstatLines c.entries)))
    lsFiles := Except.ok (String.intercalate "\n" (tree.map (fun p => p.1)))
    fileLineCount := fun f =>
      match tree.lookup f with
      | some n => Except.ok n
      | none => Except.error "open: no such file" }

/-- Specification-side definition, from the spec's words (§4.2), for
comparison with `getChangeStats`: the number of distinct file paths
touched by commits whose timestamp lies within the window. -/
def specFilesChangedInWindow (cutoff : Rat) (h : List Commit) : Nat :=
  (((windowCommits cutoff h).map (fun c => c.entries.map (fun e => e.path))).flatten).dedup.length

/-- Specification-side definition, from the spec's words (§4.2, §4.2
numeric semantics): the sum of per-file insertion counts across all
in-window commits, a binary marker contributing zero. -/
def specLinesAddedInWindow (cutoff : Rat) (h : List Commit) : Nat :=
  (((windowCommits cutoff h).map
      (fun c => (c.entries.map (fun e => e.added.getD 0)).sum)).sum)

/-- Specification-side definition, from the spec's words (§4.2): the sum
of per-file deletion counts across all in-window commits. -/
def specLinesDeletedInWindow (cutoff : Rat) (h : List Commit) : Nat :=
  (((windowCommits cutoff h).map
      (fun c => (c.entries.map (fun e => e.deleted.getD 0)).sum)).sum)

/-- Oracle of a path that is not a git repository (its `.git` marker is
absent; every command would fail). -/
def oracleNotGit : GitOracle :=
  { isGitRepo := false
    revListCountSince := Except.error "not a git repository"
    logLast := Except.error "not a git repository"
    diffNumstat := Except.error "not a git repository"
    logNumstat := Except.error "not a git repository"
    lsFiles := Except.error "not a git repository"
    fileLineCount := fun _ => Except.error "not a git repository" }

/-- Oracle whose diff output carries a negative insertion numeral — not
something real git prints, but a well-formed sequence of output lines the
parser accepts, exercising the claim's "arbitrary oracle output lines"
quantification. -/
def oracleNegNumstat : GitOracle :=
  { isGitRepo := true
    revListCountSince := Except.ok "1"
    logLast := Except.ok ""
    diffNumstat := Except.ok "-5\t0\tf.go"
    logNumstat := Except.error "unused"
    lsFiles := Except.ok "f.go"
    fileLineCount := fun _ => Except.ok 1 }

/-- A two-commit linear history, both commits inside the window for any
cutoff ≤ 1: the newest commit touches `b.go` (+5/−1), the older one
touches `a.go` (+7/−2). -/
def histTwoCommits : List Commit :=
  [⟨2, [⟨some 5, some 1, "b.go"⟩]⟩, ⟨1, [⟨some 7, some 2, "a.go"⟩]⟩]

/-- C1: the claim states the 30-point cap applies to the commit component
alone, giving score 64.936 for commitCount=45, changePercentage=12.34,
last commit 2 days ago. The source applies the cap to the running sum of
change component and commit component (`score > 30` after both were
added), so the change component is wiped out and the score at that very
input is 60, not 64.936. -/
theorem c1_riskScore_caps_running_sum :
    calculateRiskScore 2 { commitCount := 45, changePercentage := (1234 : Rat)/100 } = 60 ∧
    ¬ calculateRiskScore 2 { commitCount := 45, changePercentage := (1234 : Rat)/100 }
        = (64936 : Rat)/1000 := by with_unfolding_all decide

/-- C2 (counterexample): a record carrying an error tag is not retained
regardless of the filters. With include-inactive unset (the default) and
threshold 0, a repository that fails analysis (not a git repository, so
its record has the error tag and commitCount 0) is dropped from the
output list by the inactive filter, contrary to the claimed bypass. -/
theorem c2_error_record_dropped_counterexample :
    (analyzeRepository "r" 0 oracleNotGit).error ≠ "" ∧
    (analyzeRepositories {} 0 [("r", oracleNotGit)]).results = [] ∧
    (analyzeRepositories {} 0 [("r", oracleNotGit)]).totalRepos = 1 := by with_unfolding_all decide

/-- C3: on a repository with two commits inside the window touching
different files, the extractor reports the numstat of the newest commit
only — `git diff --numstat --since=... HEAD~1 HEAD` succeeds whenever
`HEAD~1` resolves and ignores `--since` — giving (1 file, +5, −1),
whereas the stated window-wide metrics are (2 files, +12, −3). -/
theorem c3_changeStats_last_commit_only :
    getChangeStats (oracleOfHistory 0 histTwoCommits "2024-05-30 15:20:00 +0000" []) =
      Except.ok (1, 5, 1) ∧
    specFilesChangedInWindow 0 histTwoCommits = 2 ∧
    specLinesAddedInWindow 0 histTwoCommits = 12 ∧
    specLinesDeletedInWindow 0 histTwoCommits = 3 := by with_unfolding_all decide

/-- C4: the source's pairwise swap sort is not stable. With discovery
order [b1, b2, a] where b1 and b2 tie on (score, changePercentage) and a
has the higher score, the first outer pass swaps b1 with a (leaving b1 at
a's old position, behind b2), producing [a, b2, b1]: the two tied records
come out in the reverse of their discovery order. -/
theorem c4_sort_not_stable_eval :
    sortRepositoriesByRisk
        [{ name := "b1", riskScore := 10 }, { name := "b2", riskScore := 10 },
          { name := "a", riskScore := 50 }] =
      [{ name := "a", riskScore := 50 }, { name := "b2", riskScore := 10 },
        { name := "b1", riskScore := 10 }] := by with_unfolding_all decide

/-- C5 (counterexample): a repository with no commit ever does not yield
a valid non-error record — `git rev-list --count ... HEAD` fails (the
"repository has no commits" failure class) and the source propagates any
such error into the record's error tag without special-casing it. -/
theorem c5_no_commits_repo_error_counterexample :
    (analyzeRepository "r" 0 (oracleOfHistory 0 [] "" [])).error =
      "Failed to get commit info: exit status 128" ∧
    (analyzeRepository "r" 0 (oracleOfHistory 0 [] "" [])).error ≠ "" := by with_unfolding_all decide

/-- C6 (counterexample): for arbitrary oracle output lines the claimed
invariant fails — a numstat line with a negative insertion numeral parses
via `strconv.Atoi` and drives both changePercentage and riskScore
negative on an error-free record. -/
theorem c6_invariant_counterexample :
    (analyzeRepository "r" 100 oracleNegNumstat).error = "" ∧
    (analyzeRepository "r" 100 oracleNegNumstat).changePercentage < 0 ∧
    (analyzeRepository "r" 100 oracleNegNumstat).riskScore < 0 := by with_unfolding_all decide

theorem recencyStep_nonneg (d : Rat) : 0 ≤ recencyStep d := by
  unfold recencyStep
  split_ifs <;> norm_num

theorem recencyStep_le_30 (d : Rat) : recencyStep d ≤ 30 := by
  unfold recencyStep
  split_ifs <;> norm_num

theorem scoreAfterRecency_eq (now : Rat) (a : RepositoryAnalysis) :
    scoreAfterRecency now a = scoreAfterCommits a + recencyStep (now - a.lastCommitDate) := by
  unfold scoreAfterRecency recencyStep
  split_ifs <;> ring

theorem scoreAfterCommits_pos_eq (a : RepositoryAnalysis) (hc : 0 < a.commitCount) :
    scoreAfterCommits a = min (scoreAfterChange a + (a.commitCount : Rat) * 3.0) 30 := by
  unfold scoreAfterCommits
  rw [if_pos hc]
  rcases le_or_lt (scoreAfterChange a + (a.commitCount : Rat) * 3.0) 30 with hle | hgt
  · rw [if_neg (not_lt.2 hle), min_eq_left hle]
  · rw [if_pos hgt, min_eq_right hgt.le]

theorem scoreAfterChange_nonneg (a : RepositoryAnalysis)
    (h : 0 ≤ a.changePercentage) : 0 ≤ scoreAfterChange a := by
  unfold scoreAfterChange
  nlinarith

theorem scoreAfterCommits_nonneg (a : RepositoryAnalysis)
    (h : 0 ≤ a.changePercentage) : 0 ≤ scoreAfterCommits a := by
  have h1 := scoreAfterChange_nonneg a h
  unfold scoreAfterCommits
  split_ifs with hc hcap
  · norm_num
  · have : (0 : Rat) ≤ (a.commitCount : Rat) := by positivity
    nlinarith
  · exact h1

theorem calculateRiskScore_le_100 (now : Rat) (a : RepositoryAnalysis) :
    calculateRiskScore now a ≤ 100 := by
  unfold calculateRiskScore
  split_ifs with h
  · exact le_refl 100
  · linarith

theorem calculateRiskScore_nonneg (now : Rat) (a : RepositoryAnalysis)
    (h : 0 ≤ a.changePercentage) : 0 ≤ calculateRiskScore now a := by
  have h1 := scoreAfterCommits_nonneg a h
  have h2 := recencyStep_nonneg (now - a.lastCommitDate)
  unfold calculateRiskScore
  rw [scoreAfterRecency_eq]
  split_ifs with hc
  · norm_num
  · linarith

theorem calculatePriority_mem (a : RepositoryAnalysis) :
    calculatePriority a = "HIGH" ∨ calculatePriority a = "MEDIUM" ∨
      calculatePriority a = "LOW" := by
  unfold calculatePriority
  split_ifs <;> simp

/-- C8: the priority tier is a pure function of the risk score with
thresholds 70 (HIGH, inclusive) and 40 (MEDIUM, inclusive), MEDIUM and
LOW being exclusive at their upper bounds; exactly as `calculatePriority`
implements. -/
theorem c8_tier_thresholds (a : RepositoryAnalysis) :
    (70 ≤ a.riskScore → calculatePriority a = "HIGH") ∧
    (40 ≤ a.riskScore → a.riskScore < 70 → calculatePriority a = "MEDIUM") ∧
    (a.riskScore < 40 → calculatePriority a = "LOW") := by
  unfold calculatePriority
  refine ⟨fun h => ?_, fun h1 h2 => ?_, fun h => ?_⟩ <;>
    split_ifs <;> first | rfl | linarith

/-- C8 witness: the thresholds at 70, 69, 40 and 39. -/
theorem c8_tier_thresholds_witness :
    calculatePriority { riskScore := 70 } = "HIGH" ∧
    calculatePriority { riskScore := 69 } = "MEDIUM" ∧
    calculatePriority { riskScore := 40 } = "MEDIUM" ∧
    calculatePriority { riskScore := 39 } = "LOW" := by
  refine ⟨(c8_tier_thresholds _).1 ?_, (c8_tier_thresholds _).2.1 ?_ ?_,
    (c8_tier_thresholds _).2.1 ?_ ?_, (c8_tier_thresholds _).2.2 ?_⟩ <;> norm_num

/-- C10: when commitCount ≥ 1 and changePercentage ≥ 0, the 30-point
clamp applies to the running sum of the change and commit components
before the recency component is added, so the score equals
`min (change + commit, 30) + recency` and is at most 60. -/
theorem c10_sum_clamp_before_recency (now : Rat) (a : RepositoryAnalysis)
    (h1 : 1 ≤ a.commitCount) (_h2 : 0 ≤ a.changePercentage) :
    calculateRiskScore now a =
      min (a.changePercentage * 0.4 + (a.commitCount : Rat) * 3.0) 30 +
        recencyStep (now - a.lastCommitDate) ∧
    calculateRiskScore now a ≤ 60 := by
  have hc : 0 < a.commitCount := by omega
  have hmin : min (scoreAfterChange a + (a.commitCount : Rat) * 3.0) 30 ≤ 30 :=
    min_le_right _ _
  have hstep := recencyStep_le_30 (now - a.lastCommitDate)
  have hform : calculateRiskScore now a =
      min (scoreAfterChange a + (a.commitCount : Rat) * 3.0) 30 +
        recencyStep (now - a.lastCommitDate) := by
    unfold calculateRiskScore
    rw [scoreAfterRecency_eq, scoreAfterCommits_pos_eq a hc]
    rw [if_neg (by linarith)]
  constructor
  · rw [hform]
    unfold scoreAfterChange
    ring_nf
  · rw [hform]
    linarith

/-- C10 witness: the clamped sum and the 60-point bound at the concrete
record with commitCount 45 and changePercentage 12.34, two days after its
last commit. -/
theorem c10_sum_clamp_before_recency_witness :
    calculateRiskScore 2 { commitCount := 45, changePercentage := 617/50 } ≤ 60 :=
  (c10_sum_clamp_before_recency 2 { commitCount := 45, changePercentage := 617/50 }
    (by norm_num) (by norm_num)).2

theorem string_append_ne_empty (s t : String) (h : s ≠ "") : s ++ t ≠ "" := by
  intro he
  apply h
  cases s with
  | mk ld =>
    cases t with
    | mk md =>
      have h2 : ld ++ md = ([] : List Char) := congrArg String.data he
      have h3 : ld = [] := (List.append_eq_nil.mp h2).1
      rw [h3]

theorem getRepositorySize_ok_pos (o : GitOracle) (n : Nat)
    (h : getRepositorySize o = Except.ok n) : 0 < n := by
  unfold getRepositorySize at h
  rcases hls : o.lsFiles with e | out <;> rw [hls] at h
  · exact Except.noConfusion h
  · dsimp only at h
    split_ifs at h with ht
    · injection h with h1
      omega
    · injection h with h1
      omega

theorem effectiveRepoSize_pos (o : GitOracle) : 0 < effectiveRepoSize o := by
  unfold effectiveRepoSize
  rcases hrs : getRepositorySize o with e | n
  · exact Nat.one_pos
  · exact getRepositorySize_ok_pos o n hrs

theorem successRecord_base_fields (nm : String) (now : Rat) (o : GitOracle)
    (cc : Int) (lc : Rat) (fc : Nat) (la ld : Int) :
    (successRecord nm now o cc lc fc la ld).error = "" ∧
    (successRecord nm now o cc lc fc la ld).commitCount = cc ∧
    (successRecord nm now o cc lc fc la ld).lastCommitDate = lc ∧
    (successRecord nm now o cc lc fc la ld).filesChanged = fc ∧
    (successRecord nm now o cc lc fc la ld).linesAdded = la ∧
    (successRecord nm now o cc lc fc la ld).linesDeleted = ld ∧
    (successRecord nm now o cc lc fc la ld).totalChanges = la + ld ∧
    (successRecord nm now o cc lc fc la ld).changePercentage =
      ((la + ld : Int) : Rat) / (effectiveRepoSize o : Rat) * 100 := by
  simp only [successRecord]
  split_ifs with hsz
  · exact ⟨rfl, rfl, rfl, rfl, rfl, rfl, rfl, rfl⟩
  · exact absurd (effectiveRepoSize_pos o) hsz

theorem successRecord_riskScore_le (nm : String) (now : Rat) (o : GitOracle)
    (cc : Int) (lc : Rat) (fc : Nat) (la ld : Int) :
    (successRecord nm now o cc lc fc la ld).riskScore ≤ 100 := by
  simp only [successRecord]
  split_ifs with hsz
  · exact calculateRiskScore_le_100 _ _
  · exact calculateRiskScore_le_100 _ _

theorem successRecord_cp_nonneg (nm : String) (now : Rat) (o : GitOracle)
    (cc : Int) (lc : Rat) (fc : Nat) (la ld : Int) (hnn : 0 ≤ la + ld) :
    0 ≤ (successRecord nm now o cc lc fc la ld).changePercentage := by
  have hcast : (0 : Rat) ≤ ((la + ld : Int) : Rat) := by exact_mod_cast hnn
  have h8 := successRecord_base_fields nm now o cc lc fc la ld
  rw [h8.2.2.2.2.2.2.2]
  have hsz : (0 : Rat) ≤ (effectiveRepoSize o : Rat) := by positivity
  have := div_nonneg hcast hsz
  nlinarith

theorem successRecord_riskScore_nonneg (nm : String) (now : Rat) (o : GitOracle)
    (cc : Int) (lc : Rat) (fc : Nat) (la ld : Int) (hnn : 0 ≤ la + ld) :
    0 ≤ (successRecord nm now o cc lc fc la ld).riskScore := by
  have hcast : (0 : Rat) ≤ ((la + ld : Int) : Rat) := by exact_mod_cast hnn
  have hsz : (0 : Rat) ≤ (effectiveRepoSize o : Rat) := by positivity
  have hdiv : (0 : Rat) ≤ ((la + ld : Int) : Rat) / (effectiveRepoSize o : Rat) * 100 := by
    have := div_nonneg hcast hsz
    nlinarith
  simp only [successRecord]
  split_ifs with h
  · exact calculateRiskScore_nonneg _ _ hdiv
  · exact absurd (effectiveRepoSize_pos o) h

theorem successRecord_priority_mem (nm : String) (now : Rat) (o : GitOracle)
    (cc : Int) (lc : Rat) (fc : Nat) (la ld : Int) :
    (successRecord nm now o cc lc fc la ld).recommendedPriority = "HIGH" ∨
    (successRecord nm now o cc lc fc la ld).recommendedPriority = "MEDIUM" ∨
    (successRecord nm now o cc lc fc la ld).recommendedPriority = "LOW" := by
  simp only [successRecord]
  split_ifs with hsz
  · exact calculatePriority_mem _
  · exact calculatePriority_mem _

/-- Case analysis of `analyzeRepository`: either one of the three guarded
steps failed — then the record has a non-empty error tag and all derived
metrics are still at their zero values — or both oracle queries succeeded
and the record is the `successRecord` of their results. -/
theorem analyzeRepository_split (nm : String) (now : Rat) (o : GitOracle) :
    ((analyzeRepository nm now o).error ≠ "" ∧
      (analyzeRepository nm now o).riskScore = 0 ∧
      (analyzeRepository nm now o).recommendedPriority = "" ∧
      (analyzeRepository nm now o).changePercentage = 0) ∨
    (∃ cc lc fc la ld,
      getCommitInfo o = Except.ok (cc, lc) ∧
      getChangeStats o = Except.ok (fc, la, ld) ∧
      analyzeRepository nm now o = successRecord nm now o cc lc fc la ld) := by
  by_cases hg : o.isGitRepo = false
  · left
    have hrec : analyzeRepository nm now o =
        { name := nm, path := nm, error := "Not a valid git repository" } := by
      simp only [analyzeRepository, if_pos hg]
    rw [hrec]
    exact ⟨show ("Not a valid git repository" : String) ≠ "" by decide, rfl, rfl, rfl⟩
  · rcases hci : getCommitInfo o with e | ⟨cc, lc⟩
    · left
      have hrec : analyzeRepository nm now o =
          { name := nm, path := nm, error := "Failed to get commit info: " ++ e } := by
        simp only [analyzeRepository, if_neg hg, hci]
      rw [hrec]
      exact ⟨string_append_ne_empty "Failed to get commit info: " e (by decide),
        rfl, rfl, rfl⟩
    · rcases hcs : getChangeStats o with e | ⟨fc, la, ld⟩
      · left
        have hrec : analyzeRepository nm now o =
            { name := nm, path := nm, commitCount := cc, lastCommitDate := lc,
              error := "Failed to get change stats: " ++ e } := by
          simp only [analyzeRepository, if_neg hg, hci, hcs]
        rw [hrec]
        exact ⟨string_append_ne_empty "Failed to get change stats: " e (by decide),
          rfl, rfl, rfl⟩
      · right
        exact ⟨cc, lc, fc, la, ld, rfl, rfl,
          by simp only [analyzeRepository, if_neg hg, hci, hcs]⟩

/-- C7: the zero-size guard. The effective denominator is always at
least 1: it is 1 whenever the tracked-file listing fails and whenever the
tallied line count is exactly 0, and every error-free record's
changePercentage is computed as totalChanges divided by that positive
denominator times 100 (a total, well-defined rational — never a division
by zero). -/
theorem c7_zero_size_guard (o : GitOracle) :
    1 ≤ effectiveRepoSize o ∧
    (∀ e, o.lsFiles = Except.error e → effectiveRepoSize o = 1) ∧
    (∀ out, o.lsFiles = Except.ok out → tallyTrackedLines o out = 0 →
      effectiveRepoSize o = 1) ∧
    (∀ nm now, (analyzeRepository nm now o).error = "" →
      (analyzeRepository nm now o).changePercentage =
        ((analyzeRepository nm now o).totalChanges : Rat) /
          (effectiveRepoSize o : Rat) * 100) := by
  refine ⟨effectiveRepoSize_pos o, fun e he => ?_, fun out ho ht => ?_, fun nm now h => ?_⟩
  · simp [effectiveRepoSize, getRepositorySize, he]
  · simp [effectiveRepoSize, getRepositorySize, ho, ht]
  · rcases analyzeRepository_split nm now o with ⟨hne, _, _, _⟩ | ⟨cc, lc, fc, la, ld, _, _, heq⟩
    · exact absurd h hne
    · have h8 := successRecord_base_fields nm now o cc lc fc la ld
      rw [heq, h8.2.2.2.2.2.2.2, h8.2.2.2.2.2.2.1]

/-- C7 witness: the guard at concrete oracles — a failing `ls-files`
gives denominator 1, a zero tally gives denominator 1, and the error-free
record of `oracleNegNumstat` has its changePercentage equal to
totalChanges over the effective size times 100. -/
theorem c7_zero_size_guard_witness :
    effectiveRepoSize oracleNotGit = 1 ∧
    effectiveRepoSize
      { oracleNotGit with lsFiles := Except.ok "", fileLineCount := fun _ => Except.ok 0 } = 1 ∧
    (analyzeRepository "r" 100 oracleNegNumstat).changePercentage =
      ((analyzeRepository "r" 100 oracleNegNumstat).totalChanges : Rat) /
        (effectiveRepoSize oracleNegNumstat : Rat) * 100 := by
  refine ⟨(c7_zero_size_guard oracleNotGit).2.1 "not a git repository" rfl,
    (c7_zero_size_guard _).2.2.1 "" rfl (by with_unfolding_all decide),
    (c7_zero_size_guard oracleNegNumstat).2.2.2 "r" 100 (by with_unfolding_all decide)⟩

/-- A well-behaved oracle: three in-window commits, a parseable tip date,
a two-commit diff output with nonnegative numerals, and a 200-line tree. -/
def oracleHappy : GitOracle :=
  { isGitRepo := true
    revListCountSince := Except.ok "3"
    logLast := Except.ok "2024-05-30 15:20:00 +0000"
    diffNumstat := Except.ok ("5\t1\tb.go" ++ "\n" ++ "7\t2\ta.go")
    logNumstat := Except.error "unused"
    lsFiles := Except.ok ("a.go" ++ "\n" ++ "b.go")
    fileLineCount := fun _ => Except.ok 100 }

/-- C6 (amended): every record `analyzeRepository` produces satisfies —
error-tagged records carry only the zero values for the derived metrics
(score 0, tier empty, changePercentage 0: they are never computed), and
error-free records have a riskScore of at most 100 and a tier among
HIGH/MEDIUM/LOW, with changePercentage ≥ 0 and riskScore ≥ 0 holding
whenever the parsed totalChanges is nonnegative (which real git output
guarantees, but arbitrary oracle output lines do not). -/
theorem c6_record_invariants_amended (nm : String) (now : Rat) (o : GitOracle) :
    ((analyzeRepository nm now o).error ≠ "" →
      (analyzeRepository nm now o).riskScore = 0 ∧
      (analyzeRepository nm now o).recommendedPriority = "" ∧
      (analyzeRepository nm now o).changePercentage = 0) ∧
    ((analyzeRepository nm now o).error = "" →
      (analyzeRepository nm now o).riskScore ≤ 100 ∧
      ((analyzeRepository nm now o).recommendedPriority = "HIGH" ∨
        (analyzeRepository nm now o).recommendedPriority = "MEDIUM" ∨
        (analyzeRepository nm now o).recommendedPriority = "LOW") ∧
      (0 ≤ (analyzeRepository nm now o).totalChanges →
        0 ≤ (analyzeRepository nm now o).changePercentage ∧
        0 ≤ (analyzeRepository nm now o).riskScore)) := by
  rcases analyzeRepository_split nm now o with ⟨hne, hrs, hpr, hcp⟩ | ⟨cc, lc, fc, la, ld, _, _, heq⟩
  · exact ⟨fun _ => ⟨hrs, hpr, hcp⟩, fun h => absurd h hne⟩
  · have h8 := successRecord_base_fields nm now o cc lc fc la ld
    constructor
    · intro hne
      rw [heq] at hne
      exact absurd h8.1 hne
    · intro _
      rw [heq]
      refine ⟨successRecord_riskScore_le nm now o cc lc fc la ld,
        successRecord_priority_mem nm now o cc lc fc la ld, fun htc => ?_⟩
      rw [h8.2.2.2.2.2.2.1] at htc
      exact ⟨successRecord_cp_nonneg nm now o cc lc fc la ld htc,
        successRecord_riskScore_nonneg nm now o cc lc fc la ld htc⟩

/-- C6 witness: the invariants at the error-free record of `oracleHappy`
and at the error record of `oracleNotGit`. -/
theorem c6_record_invariants_amended_witness :
    ((analyzeRepository "r" 100 oracleHappy).riskScore ≤ 100 ∧
      0 ≤ (analyzeRepository "r" 100 oracleHappy).riskScore ∧
      0 ≤ (analyzeRepository "r" 100 oracleHappy).changePercentage) ∧
    (analyzeRepository "r" 100 oracleNotGit).riskScore = 0 := by
  have h1 := (c6_record_invariants_amended "r" 100 oracleHappy).2
    (by with_unfolding_all decide)
  have h2 := h1.2.2 (by with_unfolding_all decide)
  have h3 := (c6_record_invariants_amended "r" 100 oracleNotGit).1
    (by with_unfolding_all decide)
  exact ⟨⟨h1.1, h2.2, h2.1⟩, h3.1⟩

/-- The contribution of one raw output line to the `linesAdded` counter
of `stepNumstat`. -/
def lineAddedDelta (raw : String) : Int :=
  if trimSpace raw = "" then 0
  else
    match goFields (trimSpace raw) with
    | p0 :: _ :: _ :: _ =>
      if p0 ≠ "-" then
        match atoi p0 with
        | some added => added
        | none => 0
      else 0
    | _ => 0

/-- The contribution of one raw output line to the `linesDeleted` counter
of `stepNumstat`. -/
def lineDeletedDelta (raw : String) : Int :=
  if trimSpace raw = "" then 0
  else
    match goFields (trimSpace raw) with
    | _ :: p1 :: _ :: _ =>
      if p1 ≠ "-" then
        match atoi p1 with
        | some deleted => deleted
        | none => 0
      else 0
    | _ => 0

/-- The `linesAdded` counter after the scan loop processes a list of raw
output lines. -/
def parsedLinesAdded (lines : List String) : Int :=
  (lines.foldl stepNumstat {}).linesAdded

/-- The `linesDeleted` counter after the scan loop processes a list of
raw output lines. -/
def parsedLinesDeleted (lines : List String) : Int :=
  (lines.foldl stepNumstat {}).linesDeleted

theorem stepNumstat_linesAdded (acc : ChangeAcc) (raw : String) :
    (stepNumstat acc raw).linesAdded = acc.linesAdded + lineAddedDelta raw := by
  unfold stepNumstat lineAddedDelta
  split_ifs with he
  · omega
  · rcases hf : goFields (trimSpace raw) with _ | ⟨p0, _ | ⟨p1, _ | ⟨p2, rest⟩⟩⟩ <;>
      dsimp only <;> first | rfl | omega

theorem stepNumstat_linesDeleted (acc : ChangeAcc) (raw : String) :
    (stepNumstat acc raw).linesDeleted = acc.linesDeleted + lineDeletedDelta raw := by
  unfold stepNumstat lineDeletedDelta
  split_ifs with he
  · omega
  · rcases hf : goFields (trimSpace raw) with _ | ⟨p0, _ | ⟨p1, _ | ⟨p2, rest⟩⟩⟩ <;>
      dsimp only <;> first | rfl | omega

theorem foldl_stepNumstat_linesAdded (lines : List String) (acc : ChangeAcc) :
    (lines.foldl stepNumstat acc).linesAdded =
      acc.linesAdded + (lines.map lineAddedDelta).sum := by
  induction lines generalizing acc with
  | nil => simp
  | cons l ls ih =>
    simp only [List.foldl_cons, List.map_cons, List.sum_cons]
    rw [ih, stepNumstat_linesAdded]
    ring

theorem foldl_stepNumstat_linesDeleted (lines : List String) (acc : ChangeAcc) :
    (lines.foldl stepNumstat acc).linesDeleted =
      acc.linesDeleted + (lines.map lineDeletedDelta).sum := by
  induction lines generalizing acc with
  | nil => simp
  | cons l ls ih =>
    simp only [List.foldl_cons, List.map_cons, List.sum_cons]
    rw [ih, stepNumstat_linesDeleted]
    ring

theorem lineAddedDelta_zero (raw p0 : String) (rest : List String)
    (hf : goFields (trimSpace raw) = p0 :: rest) (ha : atoi p0 = none) :
    lineAddedDelta raw = 0 := by
  unfold lineAddedDelta
  split_ifs with he
  · rfl
  · rw [hf]
    rcases rest with _ | ⟨p1, _ | ⟨p2, r⟩⟩
    · rfl
    · rfl
    · dsimp only
      split_ifs with hp
      · rw [ha]
      · rfl

theorem lineDeletedDelta_zero (raw p0 p1 : String) (rest : List String)
    (hf : goFields (trimSpace raw) = p0 :: p1 :: rest) (ha : atoi p1 = none) :
    lineDeletedDelta raw = 0 := by
  unfold lineDeletedDelta
  split_ifs with he
  · rfl
  · rw [hf]
    rcases rest with _ | ⟨p2, r⟩
    · rfl
    · dsimp only
      split_ifs with hp
      · rw [ha]
      · rfl

/-- C9: a numstat line whose insertion (resp. deletion) field is
non-numeric — the `-` binary marker, or anything `strconv.Atoi` rejects —
contributes zero to the corresponding line sum: the scan of the whole
sequence gives the same sum as the sequence without that line, all
other lines still being accumulated. Parsing never aborts: whenever one
of the two commands produced output, `getChangeStats` returns a
successful result (never an error), so the repository is not tagged. -/
theorem c9_nonnumeric_numstat_skipped :
    (∀ (pre post : List String) (raw p0 : String) (rest : List String),
      goFields (trimSpace raw) = p0 :: rest → atoi p0 = none →
      parsedLinesAdded (pre ++ raw :: post) = parsedLinesAdded (pre ++ post)) ∧
    (∀ (pre post : List String) (raw p0 p1 : String) (rest : List String),
      goFields (trimSpace raw) = p0 :: p1 :: rest → atoi p1 = none →
      parsedLinesDeleted (pre ++ raw :: post) = parsedLinesDeleted (pre ++ post)) ∧
    (∀ (o : GitOracle) (out : String), o.diffNumstat = Except.ok out →
      getChangeStats o = Except.ok (parseNumstatOutput out)) ∧
    (∀ (o : GitOracle) (e out : String), o.diffNumstat = Except.error e →
      o.logNumstat = Except.ok out →
      getChangeStats o = Except.ok (parseNumstatOutput out)) := by
  refine ⟨?_, ?_, ?_, ?_⟩
  · intro pre post raw p0 rest hf ha
    unfold parsedLinesAdded
    rw [foldl_stepNumstat_linesAdded, foldl_stepNumstat_linesAdded,
      List.map_append, List.map_append, List.map_cons,
      List.sum_append, List.sum_append, List.sum_cons,
      lineAddedDelta_zero raw p0 rest hf ha]
    ring
  · intro pre post raw p0 p1 rest hf ha
    unfold parsedLinesDeleted
    rw [foldl_stepNumstat_linesDeleted, foldl_stepNumstat_linesDeleted,
      List.map_append, List.map_append, List.map_cons,
      List.sum_append, List.sum_append, List.sum_cons,
      lineDeletedDelta_zero raw p0 p1 rest hf ha]
    ring
  · intro o out h
    unfold getChangeStats
    rw [h]
  · intro o e out h1 h2
    unfold getChangeStats
    rw [h1, h2]

/-- An oracle whose diff command fails, exercising the fallback to
`git log --numstat`. -/
def oracleFallbackNumstat : GitOracle :=
  { isGitRepo := true
    revListCountSince := Except.ok "1"
    logLast := Except.ok ""
    diffNumstat := Except.error "boom"
    logNumstat := Except.ok "2\t2\tc.go"
    lsFiles := Except.ok "c.go"
    fileLineCount := fun _ => Except.ok 1 }

/-- C9 witness: a binary `-` insertion marker and a binary `-` deletion
marker each leave the corresponding sum unchanged on a concrete
three-line sequence, and `getChangeStats` succeeds both on a direct diff
output and through the log fallback. -/
theorem c9_nonnumeric_numstat_skipped_witness :
    parsedLinesAdded ["1\t2\ta.go", "-\t3\tbin.dat", "4\t5\tb.go"] =
      parsedLinesAdded ["1\t2\ta.go", "4\t5\tb.go"] ∧
    parsedLinesDeleted ["1\t2\ta.go", "3\t-\tbin.dat", "4\t5\tb.go"] =
      parsedLinesDeleted ["1\t2\ta.go", "4\t5\tb.go"] ∧
    getChangeStats oracleHappy =
      Except.ok (parseNumstatOutput ("5\t1\tb.go" ++ "\n" ++ "7\t2\ta.go")) ∧
    getChangeStats oracleFallbackNumstat =
      Except.ok (parseNumstatOutput "2\t2\tc.go") := by
  refine ⟨c9_nonnumeric_numstat_skipped.1 ["1\t2\ta.go"] ["4\t5\tb.go"]
      "-\t3\tbin.dat" "-" ["3", "bin.dat"] (by decide) (by decide),
    c9_nonnumeric_numstat_skipped.2.1 ["1\t2\ta.go"] ["4\t5\tb.go"]
      "3\t-\tbin.dat" "3" "-" ["bin.dat"] (by decide) (by decide),
    c9_nonnumeric_numstat_skipped.2.2.1 oracleHappy _ rfl,
    c9_nonnumeric_numstat_skipped.2.2.2 oracleFallbackNumstat "boom" _ rfl rfl⟩

/-- The aggregation loop characterized: starting from any accumulator,
it leaves `totalRepos` unchanged, appends exactly the records passing
`keepRecord` (errors included), and counts exactly the kept records
whose error tag is empty. -/
theorem aggFold_characterization (cfg : AConfig) (now : Rat)
    (repos : List (String × GitOracle)) (res : AnalysisResults) :
    (repos.foldl (aggStep cfg now) res).totalRepos = res.totalRepos ∧
    (repos.foldl (aggStep cfg now) res).activeRepos =
      res.activeRepos +
        ((repos.map (fun p => analyzeRepository p.1 now p.2)).filter
          (fun a => keepRecord cfg a && decide (a.error = ""))).length ∧
    (repos.foldl (aggStep cfg now) res).results =
      res.results ++
        ((repos.map (fun p => analyzeRepository p.1 now p.2)).filter
          (keepRecord cfg)) := by
  induction repos generalizing res with
  | nil => simp
  | cons p ps ih =>
    obtain ⟨iht, iha, ihr⟩ := ih (aggStep cfg now res p)
    simp only [List.foldl_cons, List.map_cons, List.filter_cons]
    set a := analyzeRepository p.1 now p.2 with hadef
    by_cases h1 : cfg.includeInactive = false ∧ a.commitCount = 0
    · have hstep : aggStep cfg now res p = res := by
        simp only [aggStep, ← hadef]
        rw [if_pos h1]
      have hkeep : keepRecord cfg a = false := by
        simp only [keepRecord]
        rw [decide_eq_true h1]
        simp
      rw [hstep] at iht iha ihr
      rw [hstep, iht, iha, ihr, hkeep]
      simp
    · by_cases h2 : a.changePercentage < cfg.minChangeThreshold
      · have hstep : aggStep cfg now res p = res := by
          simp only [aggStep, ← hadef]
          rw [if_neg h1, if_pos h2]
        have hkeep : keepRecord cfg a = false := by
          simp only [keepRecord]
          rw [decide_eq_true h2]
          simp
        rw [hstep] at iht iha ihr
        rw [hstep, iht, iha, ihr, hkeep]
        simp
      · have hkeep : keepRecord cfg a = true := by
          simp only [keepRecord]
          rw [decide_eq_false h1, decide_eq_false h2]
          simp
        by_cases h3 : a.error = ""
        · have hstep : aggStep cfg now res p =
              { totalRepos := res.totalRepos, activeRepos := res.activeRepos + 1,
                results := res.results ++ [a] } := by
            simp only [aggStep, ← hadef]
            rw [if_neg h1, if_neg h2, if_pos h3]
          rw [hstep] at iht iha ihr
          rw [hstep, iht, iha, ihr, hkeep]
          rw [decide_eq_true h3]
          simp
          omega
        · have hstep : aggStep cfg now res p =
              { totalRepos := res.totalRepos, activeRepos := res.activeRepos,
                results := res.results ++ [a] } := by
            simp only [aggStep, ← hadef]
            rw [if_neg h1, if_neg h2, if_neg h3]
          rw [hstep] at iht iha ihr
          rw [hstep, iht, iha, ihr, hkeep]
          rw [decide_eq_false h3]
          simp

/-- C2 (amended): the aggregator applies the include-inactive filter and
the minimum-change threshold uniformly to every record, error-tagged or
not — a record is retained iff `keepRecord` holds of it — and the active
count is exactly the number of retained records whose error tag is
empty, so retained error records are excluded from it. -/
theorem c2_filters_apply_uniformly (cfg : AConfig) (now : Rat)
    (repos : List (String × GitOracle)) :
    (analyzeRepositories cfg now repos).totalRepos = repos.length ∧
    (analyzeRepositories cfg now repos).results =
      sortRepositoriesByRisk
        ((repos.map (fun p => analyzeRepository p.1 now p.2)).filter
          (keepRecord cfg)) ∧
    (analyzeRepositories cfg now repos).activeRepos =
      ((repos.map (fun p => analyzeRepository p.1 now p.2)).filter
        (fun a => keepRecord cfg a && decide (a.error = ""))).length := by
  obtain ⟨ht, ha, hr⟩ := aggFold_characterization cfg now repos
    { totalRepos := repos.length, activeRepos := 0, results := [] }
  simp only [analyzeRepositories]
  refine ⟨?_, ?_, ?_⟩
  · simpa using ht
  · simp only [hr]
    simp
  · simpa using ha

theorem getCommitInfo_history_window_empty (cutoff : Rat) (c : Commit)
    (cs : List Commit) (tipStr : String) (tree : List (String × Nat)) (t : Rat)
    (hwc : windowCommits cutoff (c :: cs) = [])
    (hne : trimSpace tipStr ≠ "")
    (hparse : parseGitDate (trimSpace tipStr) = some t) :
    getCommitInfo (oracleOfHistory cutoff (c :: cs) tipStr tree) = Except.ok (0, t) := by
  have h0 : atoi (trimSpace (toString (0 : Nat))) = some 0 := by decide
  simp only [getCommitInfo, oracleOfHistory, hwc, List.length_nil, h0, hne, hparse,
    if_false, ite_false]

theorem getChangeStats_single_out_of_window (cutoff : Rat) (c : Commit)
    (tipStr : String) (tree : List (String × Nat))
    (hwc : windowCommits cutoff [c] = []) :
    getChangeStats (oracleOfHistory cutoff [c] tipStr tree) = Except.ok (0, 0, 0) := by
  have h1 : parseNumstatOutput (String.intercalate "\n" ([] : List String)) = (0, 0, 0) := by
    with_unfolding_all decide
  simp only [getChangeStats, oracleOfHistory, hwc, List.map_nil, h1]

theorem getChangeStats_two_or_more (cutoff : Rat) (c1 c2 : Commit)
    (rest : List Commit) (tipStr : String) (tree : List (String × Nat)) :
    getChangeStats (oracleOfHistory cutoff (c1 :: c2 :: rest) tipStr tree) =
      Except.ok (parseNumstatOutput (renderNumstatLines c1.entries)) := rfl

theorem analyzeRepository_success (nm : String) (now : Rat) (o : GitOracle)
    (cc : Int) (lc : Rat) (fc : Nat) (la ld : Int)
    (hg : o.isGitRepo = true)
    (hci : getCommitInfo o = Except.ok (cc, lc))
    (hcs : getChangeStats o = Except.ok (fc, la, ld)) :
    analyzeRepository nm now o = successRecord nm now o cc lc fc la ld := by
  have hg' : ¬ o.isGitRepo = false := by simp [hg]
  simp only [analyzeRepository, if_neg hg', hci, hcs]

/-- C5 (amended): a repository with NO commit ever makes the commit query
fail — the "repository has no commits" failure class is not
special-cased, so the record is error-tagged. A repository with at least
one commit but zero commits in the window yields a non-error record with
commitCount 0 and lastCommitTime taken from outside the window; its
change stats are 0 when the repository has exactly one commit (the
diff fails and the window-scoped log fallback runs), but with two or
more commits they are parsed from the diff of the two most recent
commits regardless of the window, so they need not be 0. -/
theorem c5_zero_window_commits_amended (nm tipStr : String)
    (now cutoff t : Rat) (tree : List (String × Nat))
    (hne : trimSpace tipStr ≠ "")
    (hparse : parseGitDate (trimSpace tipStr) = some t) :
    (analyzeRepository nm now (oracleOfHistory cutoff [] tipStr tree)).error ≠ "" ∧
    (∀ c : Commit, c.time < cutoff →
      (analyzeRepository nm now (oracleOfHistory cutoff [c] tipStr tree)).error = "" ∧
      (analyzeRepository nm now (oracleOfHistory cutoff [c] tipStr tree)).commitCount = 0 ∧
      (analyzeRepository nm now (oracleOfHistory cutoff [c] tipStr tree)).lastCommitDate = t ∧
      (analyzeRepository nm now (oracleOfHistory cutoff [c] tipStr tree)).filesChanged = 0 ∧
      (analyzeRepository nm now (oracleOfHistory cutoff [c] tipStr tree)).linesAdded = 0 ∧
      (analyzeRepository nm now (oracleOfHistory cutoff [c] tipStr tree)).linesDeleted = 0) ∧
    (∀ (c1 c2 : Commit) (rest : List Commit),
      (∀ c ∈ c1 :: c2 :: rest, c.time < cutoff) →
      (analyzeRepository nm now
        (oracleOfHistory cutoff (c1 :: c2 :: rest) tipStr tree)).error = "" ∧
      (analyzeRepository nm now
        (oracleOfHistory cutoff (c1 :: c2 :: rest) tipStr tree)).commitCount = 0 ∧
      ((analyzeRepository nm now
          (oracleOfHistory cutoff (c1 :: c2 :: rest) tipStr tree)).filesChanged,
        (analyzeRepository nm now
          (oracleOfHistory cutoff (c1 :: c2 :: rest) tipStr tree)).linesAdded,
        (analyzeRepository nm now
          (oracleOfHistory cutoff (c1 :: c2 :: rest) tipStr tree)).linesDeleted) =
        parseNumstatOutput (renderNumstatLines c1.entries)) := by
  refine ⟨?_, ?_, ?_⟩
  · have hrec : analyzeRepository nm now (oracleOfHistory cutoff [] tipStr tree) =
        { name := nm, path := nm,
          error := "Failed to get commit info: " ++ "exit status 128" } := rfl
    rw [hrec]
    exact show ("Failed to get commit info: " ++ "exit status 128" : String) ≠ ""
      from string_append_ne_empty _ _ (by decide)
  · intro c hc
    have hnle : ¬ (cutoff ≤ c.time) := not_le.2 hc
    have hwc : windowCommits cutoff [c] = [] := by
      simp [windowCommits, hnle]
    have hci := getCommitInfo_history_window_empty cutoff c [] tipStr tree t hwc hne hparse
    have hcs := getChangeStats_single_out_of_window cutoff c tipStr tree hwc
    have hrec := analyzeRepository_success nm now _ 0 t 0 0 0 rfl hci hcs
    rw [hrec]
    have h8 := successRecord_base_fields nm now
      (oracleOfHistory cutoff [c] tipStr tree) 0 t 0 0 0
    exact ⟨h8.1, h8.2.1, h8.2.2.1, h8.2.2.2.1, h8.2.2.2.2.1, h8.2.2.2.2.2.1⟩
  · intro c1 c2 rest hall
    have hwc : windowCommits cutoff (c1 :: c2 :: rest) = [] := by
      apply List.filter_eq_nil_iff.mpr
      intro x hx
      simp [not_le.2 (hall x hx)]
    have hci := getCommitInfo_history_window_empty cutoff c1 (c2 :: rest) tipStr tree t
      hwc hne hparse
    have hcs := getChangeStats_two_or_more cutoff c1 c2 rest tipStr tree
    have hrec := analyzeRepository_success nm now _ 0 t
      (parseNumstatOutput (renderNumstatLines c1.entries)).1
      (parseNumstatOutput (renderNumstatLines c1.entries)).2.1
      (parseNumstatOutput (renderNumstatLines c1.entries)).2.2 rfl hci hcs
    rw [hrec]
    have h8 := successRecord_base_fields nm now
      (oracleOfHistory cutoff (c1 :: c2 :: rest) tipStr tree) 0 t
      (parseNumstatOutput (renderNumstatLines c1.entries)).1
      (parseNumstatOutput (renderNumstatLines c1.entries)).2.1
      (parseNumstatOutput (renderNumstatLines c1.entries)).2.2
    refine ⟨h8.1, h8.2.1, ?_⟩
    rw [h8.2.2.2.1, h8.2.2.2.2.1, h8.2.2.2.2.2.1]

/-- C5 witness: the amended behaviour at concrete histories — an empty
repository is error-tagged; one old commit gives a clean all-zero record;
two old commits give a clean record whose stats equal the parsed diff of
the newest commit (nonzero, although the window is empty). -/
theorem c5_zero_window_commits_amended_witness :
    (analyzeRepository "r" 100
      (oracleOfHistory 10 [] "2024-05-30 15:20:00 +0000" [])).error ≠ "" ∧
    (analyzeRepository "r" 100
      (oracleOfHistory 10 [⟨1, [⟨some 3, some 4, "x.go"⟩]⟩]
        "2024-05-30 15:20:00 +0000" [])).error = "" ∧
    (analyzeRepository "r" 100
      (oracleOfHistory 10 [⟨1, [⟨some 3, some 4, "x.go"⟩]⟩]
        "2024-05-30 15:20:00 +0000" [])).commitCount = 0 ∧
    (analyzeRepository "r" 100
      (oracleOfHistory 10 [⟨1, [⟨some 3, some 4, "x.go"⟩]⟩]
        "2024-05-30 15:20:00 +0000" [])).filesChanged = 0 ∧
    (analyzeRepository "r" 100
      (oracleOfHistory 10 histTwoCommits "2024-05-30 15:20:00 +0000" [])).error = "" ∧
    ((analyzeRepository "r" 100
        (oracleOfHistory 10 histTwoCommits "2024-05-30 15:20:00 +0000" [])).filesChanged,
      (analyzeRepository "r" 100
        (oracleOfHistory 10 histTwoCommits "2024-05-30 15:20:00 +0000" [])).linesAdded,
      (analyzeRepository "r" 100
        (oracleOfHistory 10 histTwoCommits "2024-05-30 15:20:00 +0000" [])).linesDeleted) =
      parseNumstatOutput
        (renderNumstatLines ([⟨some 5, some 1, "b.go"⟩] : List NumstatEntry)) := by
  obtain ⟨t, hparse⟩ : ∃ t, parseGitDate (trimSpace "2024-05-30 15:20:00 +0000") = some t :=
    ⟨_, rfl⟩
  have h := c5_zero_window_commits_amended "r" "2024-05-30 15:20:00 +0000" 100 10
    t [] (by decide) hparse
  have h1 := h.2.1 ⟨1, [⟨some 3, some 4, "x.go"⟩]⟩ (by with_unfolding_all decide)
  have h2 := h.2.2 ⟨2, [⟨some 5, some 1, "b.go"⟩]⟩ ⟨1, [⟨some 7, some 2, "a.go"⟩]⟩ []
    (by with_unfolding_all decide)
  exact ⟨h.1, h1.1, h1.2.1, h1.2.2.2.1, h2.1, h2.2.2⟩

end PentestSched
